import Mathlib

/-!
Verification development for the OBO Foundry metadata tooling: a shallow
embedding of the registry-metadata reader, the integrity checks, the
contributor-aggregation pipeline with its on-disk caches, and the
Wikidata curation-query builder, together with theorems about their
behaviour.

Python string primitives are embedded as structural functions over the
character list of a string, so that every definition evaluates inside the
kernel.  Network and file-system effects are embedded as explicit state
passing over a `World` record that carries the on-disk caches, oracles
for the two HTTP endpoints, and a log of issued network calls.
-/

/-- Embeds Python `s[n:]` for an ASCII string. -/
def strDrop (s : String) (n : Nat) : String := String.mk (s.data.drop n)

/-- Embeds Python `s.startswith(pre)`. -/
def strStarts (s pre : String) : Bool := pre.data.isPrefixOf s.data

/-- Embeds Python `s.endswith(suf)`. -/
def strEnds (s suf : String) : Bool := suf.data.isSuffixOf s.data

/-- Embeds Python `s.lower()` / `s.casefold()` (ASCII data). -/
def lowerStr (s : String) : String := String.mk (s.data.map Char.toLower)

/-- Embeds Python `s.replace(chr, "")` for a single character. -/
def removeChar (s : String) (c : Char) : String :=
  String.mk (s.data.filter (fun d => d ≠ c))

/-- Embeds Python `sep.join(parts)`. -/
def joinSep (sep : String) : List String → String
  | [] => ""
  | [x] => x
  | x :: xs => x ++ sep ++ joinSep sep xs

/-- Embeds Python `"".join(parts)`. -/
def joinAll : List String → String
  | [] => ""
  | x :: xs => x ++ joinAll xs

/-- Substring search on character lists (helper for `strContains`). -/
def containsAux (pat : List Char) : List Char → Bool
  | [] => pat.isEmpty
  | c :: t => pat.isPrefixOf (c :: t) || containsAux pat t

/-- Embeds Python `pat in s` (substring containment). -/
def strContains (s pat : String) : Bool := containsAux pat.data s.data

/-- Lexicographic strict comparison of character lists by code point,
as Python compares strings. -/
def listLt : List Char → List Char → Bool
  | [], [] => false
  | [], _ :: _ => true
  | _ :: _, [] => false
  | a :: as, b :: bs =>
    if a.toNat < b.toNat then true
    else if b.toNat < a.toNat then false
    else listLt as bs

/-- Lexicographic non-strict comparison of character lists by code point. -/
def listLe : List Char → List Char → Bool
  | [], _ => true
  | _ :: _, [] => false
  | a :: as, b :: bs =>
    if a.toNat < b.toNat then true
    else if b.toNat < a.toNat then false
    else listLe as bs

/-- Embeds Python `a < b` on strings. -/
def strLt (a b : String) : Bool := listLt a.data b.data

/-- Embeds Python `a <= b` on strings. -/
def strLe (a b : String) : Bool := listLe a.data b.data

/-- The Python string order as a decidable relation, used for sorting. -/
abbrev strLeR (a b : String) : Prop := strLe a b = true

instance : IsTotal String strLeR := by
  constructor
  suffices h : ∀ as bs : List Char, listLe as bs = true ∨ listLe bs as = true by
    intro a b
    exact h a.data b.data
  intro as
  induction as with
  | nil => intro bs; left; rfl
  | cons a as ih =>
    intro bs
    cases bs with
    | nil => right; rfl
    | cons b bs =>
      by_cases h1 : a.toNat < b.toNat
      · left; simp [listLe, h1]
      · by_cases h2 : b.toNat < a.toNat
        · right; simp [listLe, h2]
        · rcases ih bs with h | h
          · left; simp [listLe, h1, h2, h]
          · right; simp [listLe, h1, h2, h]

instance : IsTrans String strLeR := by
  constructor
  suffices h : ∀ as bs cs : List Char,
      listLe as bs = true → listLe bs cs = true → listLe as cs = true by
    intro a b c hab hbc
    exact h a.data b.data c.data hab hbc
  intro as
  induction as with
  | nil => intro bs cs _ _; rfl
  | cons a as ih =>
    intro bs cs hab hbc
    cases bs with
    | nil => simp [listLe] at hab
    | cons b bs =>
      cases cs with
      | nil => simp [listLe] at hbc
      | cons c cs =>
        by_cases h1 : a.toNat < b.toNat
        · by_cases h2 : b.toNat < c.toNat
          · have : a.toNat < c.toNat := by omega
            simp [listLe, this]
          · by_cases h3 : c.toNat < b.toNat
            · simp [listLe, h2, h3] at hbc
            · have : a.toNat < c.toNat := by omega
              simp [listLe, this]
        · by_cases h4 : b.toNat < a.toNat
          · simp [listLe, h1, h4] at hab
          · have hab2 : listLe as bs = true := by
              simpa [listLe, h1, h4] using hab
            by_cases h2 : b.toNat < c.toNat
            · have : a.toNat < c.toNat := by omega
              simp [listLe, this]
            · by_cases h3 : c.toNat < b.toNat
              · simp [listLe, h2, h3] at hbc
              · have hbc2 : listLe bs cs = true := by
                  simpa [listLe, h2, h3] using hbc
                have h5 : ¬ a.toNat < c.toNat := by omega
                have h6 : ¬ c.toNat < a.toNat := by omega
                simp [listLe, h5, h6]
                exact ih bs cs hab2 hbc2

/-- Embeds Python `sorted` on a list of strings (a stable sort under the
code-point order; insertion sort yields the same output). -/
def sortStrings (l : List String) : List String := l.insertionSort strLeR

/-- Embeds Python `str.isnumeric` for ASCII data. -/
def pyIsNumeric (s : String) : Bool := !s.data.isEmpty && s.data.all Char.isDigit

/-! ## Publication identifier validation (tests/test_integrity.py) -/

/-- URL scheme constant `PUBMED_PREFIX` of tests/test_integrity.py. -/
def PUBMED_PRE : String := "https://www.ncbi.nlm.nih.gov/pubmed/"

/-- URL scheme constant `ARXIV_PREFIX` of tests/test_integrity.py. -/
def ARXIV_PRE : String := "https://arxiv.org/abs/"

/-- URL scheme constant `BIORXIV_PREFIX` of tests/test_integrity.py. -/
def BIORXIV_PRE : String := "https://www.biorxiv.org/content/"

/-- URL scheme constant `MEDRXIV_PREFIX` of tests/test_integrity.py. -/
def MEDRXIV_PRE : String := "https://www.medrxiv.org/content/"

/-- URL scheme constant `ZENODO_PREFIX` of tests/test_integrity.py. -/
def ZENODO_PRE : String := "https://zenodo.org/record/"

/-- URL scheme constant `DOI_PREFIX` of tests/test_integrity.py. -/
def DOI_PRE : String := "https://doi.org/"

/-- URL scheme constant `CHEMRXIV_DOI_PREFIX` of tests/test_integrity.py. -/
def CHEMRXIV_DOI_PRE : String := "https://doi.org/10.26434/chemrxiv"

/-- A publication record: the checked fields are `title` (presence only)
and the identifier string `id`. -/
structure Publication where
  title : Option String
  id : String

/-- Embeds `TestIntegrity.assert_valid_publication_id`: `true` iff every
assertion in the method passes.  The final conjunct embeds the loop
`for v in range(1, 100): assertFalse(identifier.endswith(f".v{v}"))`
that is guarded by `is_arxiv or is_biorxiv or is_medrxiv or
identifier.startswith(CHEMRXIV_DOI_PREFIX)`. -/
def assert_valid_publication_id (p : Publication) : Bool :=
  let identifier := p.id
  let is_pubmed := strStarts identifier PUBMED_PRE &&
    pyIsNumeric (strDrop identifier PUBMED_PRE.length)
  let is_zenodo := strStarts identifier ZENODO_PRE &&
    pyIsNumeric (strDrop identifier ZENODO_PRE.length)
  let is_doi := strStarts identifier DOI_PRE
  let is_arxiv := strStarts identifier ARXIV_PRE
  let is_biorxiv := strStarts identifier BIORXIV_PRE
  let is_medrxiv := strStarts identifier MEDRXIV_PRE
  p.title.isSome &&
  !(strEnds identifier "/") &&
  (is_pubmed || is_zenodo || is_doi || is_arxiv || is_biorxiv || is_medrxiv) &&
  (!(is_arxiv || is_biorxiv || is_medrxiv || strStarts identifier CHEMRXIV_DOI_PRE) ||
    (List.range' 1 99).all (fun v => !(strEnds identifier (".v" ++ toString v))))

/-! ## Metadata store reader (src/obofoundry/utils.py, get_data) -/

/-- Error raised by the reader on a malformed document (the spec calls both
the failed leading `assert` and the failed `min` over an empty generator
a FormatError). -/
inductive ReadError where
  | formatError
  deriving DecidableEq

/-- Scan for the first line equal to the front-matter marker, starting at
line index `i`; embeds `min(i for i, line in enumerate(lines[1:], start=1)
if line == "---")` when applied to the tail with `i = 1`. -/
def findMarkerFrom : List String → Nat → Option Nat
  | [], _ => none
  | l :: ls, i => if l = "---" then some i else findMarkerFrom ls (i + 1)

/-- Embeds the per-document body of `get_data`: check the first line is
`---`, find the next `---` at index `idx`, parse `lines[1:idx]` as the
structured block (kept as raw lines here; YAML decoding is the out-of-scope
serialization layer), and set the long-form description to
`"".join(lines[idx:])`. -/
def get_data_doc : List String → Except ReadError (List String × String)
  | [] => .error .formatError
  | first :: rest =>
    if first = "---" then
      match findMarkerFrom rest 1 with
      | some idx => .ok (rest.take (idx - 1), joinAll (rest.drop (idx - 1)))
      | none => .error .formatError
    else .error .formatError

/-! ## Registry records and integrity checks (tests/test_integrity.py) -/

/-- One entry of a record's `dependencies` list. -/
structure Dependency where
  id : String
  type : Option String
  deriving DecidableEq

/-- The fields of a parsed registry record used by the integrity checks.
A missing `dependencies` key and an empty list both behave like Python's
`if not dependencies: continue`, so both are represented by `[]`. -/
structure OntRecord where
  dependencies : List Dependency
  preferredPfx : Option String
  activity_status : Option String
  deriving DecidableEq

/-- The per-dependency loop of `TestIntegrity.test_dependencies` over
`enumerate`d dependencies: the first failing assertion message, if any.
A `BridgeOntology`-typed dependency must start with the record id and a
slash; any other dependency id must be a key of the store. -/
def depFailure (storeIds : List String) (ont : String) :
    List (Nat × Dependency) → Option String
  | [] => none
  | (i, dep) :: rest =>
    if dep.type = some "BridgeOntology" then
      if strStarts dep.id (ont ++ "/") then depFailure storeIds ont rest
      else some ("Bridge dependency of " ++ ont ++ " does not start with " ++ ont ++ "/")
    else
      if dep.id ∈ storeIds then depFailure storeIds ont rest
      else some ("Ontology " ++ ont ++ " has invalid dependency at index " ++
        toString i ++ ": " ++ dep.id)

/-- The per-record body of `TestIntegrity.test_dependencies`: the first
failing assertion message for one record, `none` when every assertion
passes.  Mirrors `sorted(ids) == ids`, `sorted(set(ids)) == ids`, then the
per-dependency loop. -/
def checkRecordDeps (storeIds : List String) (ont : String)
    (deps : List Dependency) : Option String :=
  let ids := deps.map (fun d => d.id)
  if sortStrings ids ≠ ids then some "dependencies should be sorted by ID"
  else if sortStrings ids.dedup ≠ ids then some "dependencies should be unique"
  else depFailure storeIds ont deps.enum

/-- Embeds `TestIntegrity.test_dependencies` over a whole store: the list
of (record id, first failure) pairs; records without dependencies are
skipped.  Each record is checked independently (unittest subtests). -/
def test_dependencies (ontologies : List (String × OntRecord)) :
    List (String × String) :=
  ontologies.filterMap (fun p =>
    if p.2.dependencies.isEmpty then none
    else (checkRecordDeps (ontologies.map Prod.fst) p.1 p.2.dependencies).map
      (fun m => (p.1, m)))

/-- Embeds `TestIntegrity.skip_inactive`. -/
def skip_inactive (record : OntRecord) : Bool :=
  record.activity_status ≠ some "active"

/-- The per-record body of `TestIntegrity.test_preferred_prefix`: first
failing assertion message, `none` when all pass.  Note the record with
identifier `dpo` is exempted from the case-insensitive equality check. -/
def checkPreferredPfx (pfx : String) (record : OntRecord) : Option String :=
  match record.preferredPfx with
  | none => some "preferredPrefix is missing"
  | some pp =>
    if ¬ (2 ≤ pp.length) then some "preferredPrefix is too short"
    else if strContains pp " " then some "preferredPrefix contains a space"
    else if pfx ≠ "dpo" ∧ lowerStr pp ≠ lowerStr pfx then
      some "preferredPrefix does not match the record identifier"
    else none

/-- Embeds `TestIntegrity.test_preferred_prefix` over a whole store:
inactive records are skipped; each active record is checked independently. -/
def test_preferred_pfx (ontologies : List (String × OntRecord)) :
    List (String × String) :=
  ontologies.filterMap (fun p =>
    if skip_inactive p.2 then none
    else (checkPreferredPfx p.1 p.2).map (fun m => (p.1, m)))

/-! ## Exclusion tables and the curation query
(src/obofoundry/diversity_analysis.py) -/

/-- The literal `login_blacklist` set of diversity_analysis.py (before the
override table is merged in). -/
def login_blacklist_base : List String :=
  ["github-actions[bot]", "dependabot[bot]", "uberon", "rsc-ontologies",
   "txpo-ontology", "actions-user", "ontobot", "GoogleCodeExporter", "labda",
   "bbopjenkins", "echinoderm-ontology", "OnToologyUser", "scdodev",
   "wmbio", "WMBio", "Antonarctica", "Jguzman210", "helenamachado",
   "ccadete", "psyrebecca", "Rena-Yang-cell", "paulbrowne", "hstrachan",
   "euniceyi", "tamuzhou", "ejohnson1", "DiegoRegalado", "kbdhaar",
   "aechchiki", "danielwelch", "emquardokus", "mfjackson", "bkr-iotic",
   "indiedotkim", "tnavatar", "wildlifehexagon", "CMCosta", "Huffmaar",
   "jonathanbona", "hjellis", "c15mnw", "ypandit", "decorons",
   "seymourmegan", "b-sheppard", "nsewnath"]

/-- The literal `github_to_orcid` override table of diversity_analysis.py. -/
def github_to_orcid : List (String × String) :=
  [("seljaseppala", "0000-0002-0791-1347"), ("sjbost", "0000-0001-8553-9539"),
   ("cosmicnet", "0000-0003-3267-4993"), ("iwilkie", "0000-0003-1072-8081"),
   ("celineaubert", "0000-0001-6284-4821"),
   ("CooperStansbury", "0000-0003-2413-8314"),
   ("austinmeier", "0000-0001-6996-0040"), ("Audald", "0000-0001-6272-9639"),
   ("Anoosha-Sehar", "0000-0001-5275-8866"),
   ("adbartni", "0000-0001-9676-7377"),
   ("johnwjudkins", "0000-0001-6595-0902"), ("hujo91", "0000-0002-4378-6061"),
   ("jmillanacosta", "0000-0002-4166-7093"),
   ("jonathanvajda", "0000-0003-4693-5218"), ("ubyndr", "0000-0002-6012-3729"),
   ("hdrabkin", "0000-0003-2689-5511"), ("rushtong", "0000-0002-4648-4229"),
   ("epontell", "0000-0002-7753-1737"),
   ("EliotRagueneau", "0000-0002-7876-6503"),
   ("annadunn3", "0000-0003-2852-7755"),
   ("katiermullen", "0000-0002-5002-8648"), ("hkir-dev", "0000-0002-3315-2794"),
   ("delphinedauga", "0000-0003-3152-1194"), ("chambm", "0000-0001-6382-3344"),
   ("rudnicki", "0000-0001-7235-5511"), ("mark-jensen", "0000-0001-9228-8838"),
   ("tutajm", "0000-0002-1025-101X"), ("utecht", "0000-0002-7451-0439"),
   ("holger-stenzhorn", "0000-0001-9744-174X"),
   ("amanjeev", "0000-0002-2695-0579"), ("srynobio", "0000-0002-1638-5377"),
   ("cmrn-rhi", "0000-0002-9578-0788"), ("StroemPhi", "0000-0002-1595-3213"),
   ("haoyuanli", "0000-0002-2554-4835")]

/-- The effective exclusion set after module initialization:
`login_blacklist.update(set(github_to_orcid))` merges the override table's
keys into the blacklist. -/
def login_blacklist : List String :=
  login_blacklist_base ++ github_to_orcid.map Prod.fst

/-- The fields of one contributor entry read by `get_curation_sparql`:
`data["name"]` (a string, or Python `None`) and `data["prefixes"]`. -/
structure CurationEntry where
  name : Option String
  prefixes : List String
  deriving DecidableEq

/-- Embeds Python `f'"{s}"'`. -/
def quoteStr (s : String) : String := "\"" ++ s ++ "\""

/-- One element of the `it` set comprehension of `get_curation_sparql`:
the (quoted login, quoted cleaned name or UNDEF, quoted joined prefixes)
triple for one contributor. -/
def curationTriple (login : String) (e : CurationEntry) :
    String × String × String :=
  (quoteStr login,
   match e.name with
   | none => "UNDEF"
   | some n => quoteStr (removeChar n '"'),
   quoteStr (joinSep ", " (sortStrings e.prefixes)))

/-- The `it` comprehension of `get_curation_sparql` before set-dedup and
sorting: one triple per contributor whose login passes the blacklist
filter `login.lower() not in login_blacklist and login not in
login_blacklist`. -/
def curationTriples (contributors : List (String × CurationEntry)) :
    List (String × String × String) :=
  (contributors.filter (fun p =>
     decide (lowerStr p.1 ∉ login_blacklist ∧ p.1 ∉ login_blacklist))).map
    (fun p => curationTriple p.1 p.2)

/-- Python tuple comparison on the curation triples. -/
def tripleLeB (a b : String × String × String) : Bool :=
  if a.1 = b.1 then
    (if a.2.1 = b.2.1 then strLe a.2.2 b.2.2 else strLt a.2.1 b.2.1)
  else strLt a.1 b.1

/-- Python tuple comparison on the curation triples, as a relation. -/
abbrev tripleLeR (a b : String × String × String) : Prop := tripleLeB a b = true

/-- Embeds `sorted(it)`: the distinct triples in ascending tuple order. -/
def curationTriplesSorted (contributors : List (String × CurationEntry)) :
    List (String × String × String) :=
  (curationTriples contributors).dedup.insertionSort tripleLeR

/-- Embeds `github_logins = " ".join("(" + " ".join(t) + ")" for t in
sorted(it))`. -/
def githubLoginsStr (contributors : List (String × CurationEntry)) : String :=
  joinSep " " ((curationTriplesSorted contributors).map
    (fun t => "(" ++ t.1 ++ " " ++ t.2.1 ++ " " ++ t.2.2 ++ ")"))

/-- The `SERVICE` constant of diversity_analysis.py. -/
def SERVICE : String :=
  "SERVICE wikibase:label \x7b bd:serviceParam wikibase:language \"[AUTO_LANGUAGE],en\". \x7d"

/-- The fixed part of the curation query before the interpolated logins. -/
def curationHead : String :=
  "    SELECT DISTINCT ?github ?name ?ontologies \n    #?person ?personLabel ?genderLabel\n    WHERE\n    \x7b\n        VALUES (?github ?name ?ontologies) \x7b \n            "

/-- The fixed part of the curation query after the interpolated logins. -/
def curationTail : String :=
  " \n        \x7d\n        OPTIONAL \x7b\n            ?person wdt:P2037 ?github .\n            OPTIONAL \x7b ?person wdt:P496 ?orcid \x7d\n            OPTIONAL \x7b ?person wdt:P21 ?gender \x7d\n        \x7d\n        FILTER(!BOUND(?person))\n        " ++
  SERVICE ++
  "\n    \x7d\n    ORDER BY ?person DESC(?name)\n    "

/-- Embeds `get_curation_sparql`: the full query text built from the
f-string template and the interpolated triple enumeration. -/
def get_curation_sparql (contributors : List (String × CurationEntry)) :
    String :=
  curationHead ++ githubLoginsStr contributors ++ curationTail

/-! ## JSON payloads, the world state, and the contributor pipeline
(src/obofoundry/utils.py and diversity_analysis.py) -/

/-- Abstract JSON values, the payloads of the code-hosting API. -/
inductive Json where
  | str : String → Json
  | num : Int → Json
  | bool : Bool → Json
  | null : Json
  | arr : List Json → Json
  | obj : List (String × Json) → Json

/-- Field lookup in a JSON object body. -/
def lookupField : List (String × Json) → String → Option Json
  | [], _ => none
  | (k, v) :: rest, key => if k = key then some v else lookupField rest key

/-- Embeds Python `d.get(key)` on a decoded JSON value: `none` models
Python `None` (either a missing key or a JSON `null` value). -/
def Json.pyGet : Json → String → Option Json
  | .obj fields, key =>
    match lookupField fields key with
    | some .null => none
    | some v => some v
    | none => none
  | _, _ => none

/-- The per-contributor profile dictionary built by `get_contributors`. -/
structure UserProfile where
  contributions : Nat
  name : Option Json
  email : Option Json
  bio : Option Json
  blog : Option Json
  company : Option Json
  twitter_username : Option Json

/-- A contributor's entry in the merged global view: the profile fields
plus the record-identifier set added at the end of `get_contributors`. -/
structure AuthorEntry where
  profile : UserProfile
  prefixes : List String

/-- A network call issued through `get_github`. -/
inductive NetCall where
  | contribList (owner repoName : String)
  | userLookup (login : String)

/-- The effectful environment of the pipeline: the per-record contributor
cache directory, the per-user profile cache directory (both modelled as
maps from file key to parsed content), the two HTTP response oracles, and
the log of issued network calls. -/
structure World where
  recordCache : String → Option (List (String × UserProfile))
  userCache : String → Option Json
  contribApi : String → String → List (String × Nat)
  userApi : String → Json
  calls : List NetCall

/-- The GitHub user endpoint URL of `get_github_user`. -/
def users_url (u : String) : String := "https://api.github.com/users/" ++ u

/-- Embeds `get_github_user`: a cache-file hit (keyed by the lowercased
username) returns the parsed file and touches nothing; a miss queries the
API, persists whatever body came back under the lowercased username, and
returns it. -/
def get_github_user (w : World) (u : String) : Json × World :=
  match w.userCache (lowerStr u) with
  | some cached => (cached, w)
  | none =>
    (w.userApi (users_url u),
     { w with
        userCache := fun k =>
          if k = lowerStr u then some (w.userApi (users_url u))
          else w.userCache k,
        calls := w.calls ++ [NetCall.userLookup u] })

/-- The inner loop of the cache-miss branch of `get_contributors`: for each
(login, contributions) pair of the contributor-list response, fetch or
load the user profile and project the stored fields. -/
def buildProfiles : World → List (String × Nat) →
    (List (String × UserProfile)) × World
  | w, [] => ([], w)
  | w, (login, contributions) :: rest =>
    ((login,
      { contributions := contributions,
        name := (get_github_user w login).1.pyGet "name",
        email := (get_github_user w login).1.pyGet "email",
        bio := (get_github_user w login).1.pyGet "bio",
        blog := (get_github_user w login).1.pyGet "blog",
        company := (get_github_user w login).1.pyGet "company",
        twitter_username := (get_github_user w login).1.pyGet "twitter_username" }) ::
      (buildProfiles (get_github_user w login).2 rest).1,
     (buildProfiles (get_github_user w login).2 rest).2)

/-- The per-record body of `get_contributors`: if the record's
contributor cache file exists, load it verbatim and do nothing else;
otherwise fetch the contributor list (one network call), build the
profile map, and persist it to the record's cache file. -/
def processRecord (w : World) (pfx owner repoName : String) :
    (List (String × UserProfile)) × World :=
  match w.recordCache pfx with
  | some cached => (cached, w)
  | none =>
    ((buildProfiles { w with calls := w.calls ++ [NetCall.contribList owner repoName] }
        (w.contribApi owner repoName)).1,
     { (buildProfiles { w with calls := w.calls ++ [NetCall.contribList owner repoName] }
          (w.contribApi owner repoName)).2 with
        recordCache := fun k =>
          if k = pfx then
            some (buildProfiles { w with calls := w.calls ++ [NetCall.contribList owner repoName] }
              (w.contribApi owner repoName)).1
          else
            (buildProfiles { w with calls := w.calls ++ [NetCall.contribList owner repoName] }
              (w.contribApi owner repoName)).2.recordCache k })

/-- First-match association-list lookup, the dictionary access used by the
aggregation loop. -/
def lookupFirst : List (String × UserProfile) → String → Option UserProfile
  | [], _ => none
  | (k, v) :: rest, login => if k = login then some v else lookupFirst rest login

/-- The main loop of `get_contributors`: `authors.update(pc)` overwrites
per-login profiles with the current record's entries, and
`author_to_prefix[login].add(prefix)` accumulates the record-identifier
set (represented as a duplicate-free list in insertion order). -/
def aggLoop : World → List (String × String × String) →
    (String → Option UserProfile) → (String → List String) →
    ((String → Option UserProfile) × (String → List String) × World)
  | w, [], authors, a2p => (authors, a2p, w)
  | w, (pfx, owner, repoName) :: rest, authors, a2p =>
    aggLoop (processRecord w pfx owner repoName).2 rest
      (fun l =>
        match lookupFirst (processRecord w pfx owner repoName).1 l with
        | some d => some d
        | none => authors l)
      (fun l =>
        if l ∈ ((processRecord w pfx owner repoName).1.map Prod.fst) then
          (if pfx ∈ a2p l then a2p l else a2p l ++ [pfx])
        else a2p l)

/-- The repository-items order of `sorted(get_repositories().items())`:
items compare by their record identifier (the dictionary keys are
unique, so the identifier decides the order). -/
abbrev repoLeR (a b : String × String × String) : Prop := strLe a.1 b.1 = true

/-- Embeds `sorted(get_repositories().items())`. -/
def sortRepos (repos : List (String × String × String)) :
    List (String × String × String) :=
  repos.insertionSort repoLeR

/-- Embeds `get_contributors`: process the repositories in
identifier-sorted order, then attach each author's accumulated
record-identifier set to their (last-written) profile. -/
def get_contributors (w : World) (repos : List (String × String × String)) :
    (String → Option AuthorEntry) × World :=
  ((fun login =>
      ((aggLoop w (sortRepos repos) (fun _ => none) (fun _ => [])).1 login).map
        (fun p =>
          { profile := p,
            prefixes :=
              (aggLoop w (sortRepos repos) (fun _ => none) (fun _ => [])).2.1 login })),
   (aggLoop w (sortRepos repos) (fun _ => none) (fun _ => [])).2.2)

/-! ## Spec-side definitions for the merge claim (refinement targets) -/

/-- The per-record contributor maps a run over `rs` reads when every
record's cache file exists. -/
def cachedMaps (w : World) (rs : List (String × String × String)) :
    List (String × List (String × UserProfile)) :=
  rs.map (fun r => (r.1, (w.recordCache r.1).getD []))

/-- Spec-side definition (follows the claim's words): the profile kept for
a login is the one from whichever record comes last in processing order
among the records whose contributor map mentions the login. -/
def lastWinsProfile : List (String × List (String × UserProfile)) → String →
    Option UserProfile
  | [], _ => none
  | m :: rest, login =>
    match lastWinsProfile rest login with
    | some d => some d
    | none => lookupFirst m.2 login

/-- Spec-side definition (follows the claim's words): the set of record
identifiers whose contributor map mentions the login, in processing
order. -/
def recordSetOf (maps : List (String × List (String × UserProfile)))
    (login : String) : List String :=
  (maps.filter (fun m => decide (login ∈ m.2.map Prod.fst))).map Prod.fst

/-! ## Concrete data for the witnesses -/

/-- An error payload as GitHub returns on rate limiting. -/
def errPayload : Json := Json.obj [("message", Json.str "API rate limit exceeded")]

/-- A world with empty caches whose user endpoint always answers with an
error payload. -/
def w9 : World :=
  { recordCache := fun _ => none, userCache := fun _ => none,
    contribApi := fun _ _ => [], userApi := fun _ => errPayload, calls := [] }

/-- A sample cached per-record contributor map. -/
def pc5 : List (String × UserProfile) :=
  [("cthoyt",
    { contributions := 5, name := some (Json.str "Charles"), email := none,
      bio := none, blog := none, company := none, twitter_username := none })]

/-- A world whose record `go` has a contributor cache file. -/
def w5 : World :=
  { recordCache := fun k => if k = "go" then some pc5 else none,
    userCache := fun _ => none, contribApi := fun _ _ => [],
    userApi := fun _ => Json.null, calls := [] }

/-- Profile for the shared login as record `aaa` caches it. -/
def pAlice1 : UserProfile :=
  { contributions := 1, name := some (Json.str "Alice A"), email := none,
    bio := none, blog := none, company := none, twitter_username := none }

/-- Profile for the shared login as record `bbb` caches it. -/
def pAlice2 : UserProfile :=
  { contributions := 7, name := some (Json.str "Alice B"), email := none,
    bio := none, blog := none, company := none, twitter_username := none }

/-- A world whose records `aaa` and `bbb` both have cache files and share
the login `alice`. -/
def wC10 : World :=
  { recordCache := fun k =>
      if k = "aaa" then some [("alice", pAlice1)]
      else if k = "bbb" then some [("alice", pAlice2)] else none,
    userCache := fun _ => none, contribApi := fun _ _ => [],
    userApi := fun _ => Json.null, calls := [] }

/-- Two repositories, given out of identifier order. -/
def reposC10 : List (String × String × String) :=
  [("bbb", "org2", "repo2"), ("aaa", "org1", "repo1")]

/-- The `abc` record of the end-to-end dependency scenario. -/
def recAbc : OntRecord :=
  { dependencies := [], preferredPfx := some "ABC",
    activity_status := some "active" }

/-- The `xyz` record with a valid dependency on `abc`. -/
def recXyzGood : OntRecord :=
  { dependencies := [{ id := "abc", type := none }],
    preferredPfx := some "XYZ", activity_status := some "active" }

/-- The `xyz` record with a dangling dependency on `missing`. -/
def recXyzBad : OntRecord :=
  { dependencies := [{ id := "missing", type := none }],
    preferredPfx := some "XYZ", activity_status := some "active" }

/-- The passing two-record store of the end-to-end scenario. -/
def storeGood : List (String × OntRecord) := [("abc", recAbc), ("xyz", recXyzGood)]

/-- The failing two-record store of the end-to-end scenario. -/
def storeBad : List (String × OntRecord) := [("abc", recAbc), ("xyz", recXyzBad)]

/-- An active record whose preferred prefix does not case-insensitively
match the identifier `dpo` (as with that record's real prefix `FBcv`). -/
def recDpo : OntRecord :=
  { dependencies := [], preferredPfx := some "FBcv",
    activity_status := some "active" }

/-- A curation entry for the override-table login. -/
def curSelja : CurationEntry := { name := some "Selja", prefixes := ["obi"] }

/-- A curation entry for a login that is not excluded. -/
def curGood : CurationEntry := { name := none, prefixes := ["go", "obi"] }

/-- A contributor relation containing both an excluded and an included
login. -/
def contribsW : List (String × CurationEntry) :=
  [("seljaseppala", curSelja), ("gooduser", curGood)]

/-! ## Helper lemmas -/

theorem findMarkerFrom_none (ls : List String) (i : Nat) (h : ∀ l ∈ ls, l ≠ "---") :
    findMarkerFrom ls i = none := by
  induction ls generalizing i with
  | nil => rfl
  | cons a t ih =>
    have ha : a ≠ "---" := h a (List.mem_cons_self a t)
    simp only [findMarkerFrom, if_neg ha]
    exact ih (i + 1) (fun l hl => h l (List.mem_cons_of_mem a hl))

theorem findMarkerFrom_append (front tail : List String) (i : Nat)
    (h : "---" ∉ front) :
    findMarkerFrom (front ++ "---" :: tail) i = some (front.length + i) := by
  induction front generalizing i with
  | nil => simp [findMarkerFrom]
  | cons a t ih =>
    have ha : a ≠ "---" := by
      intro hEq; exact h (hEq ▸ List.mem_cons_self a t)
    have ht : "---" ∉ t := fun hm => h (List.mem_cons_of_mem a hm)
    simp only [List.cons_append, List.append_eq, findMarkerFrom, if_neg ha]
    rw [ih (i + 1) ht]
    congr 1
    simp only [List.length_cons]
    omega

theorem get_data_doc_wf (front tail : List String) (h : "---" ∉ front) :
    get_data_doc ("---" :: front ++ "---" :: tail) =
      .ok (front, joinAll ("---" :: tail)) := by
  have h1 : findMarkerFrom (front ++ "---" :: tail) 1 = some (front.length + 1) :=
    findMarkerFrom_append front tail 1 h
  have h2 : front.length + 1 - 1 = front.length := by omega
  simp only [List.cons_append, get_data_doc, h1, h2, if_true]
  simp [List.take_left, List.drop_left]

/-! ## Claim theorems -/

/-- C2: for every document whose first line is not the marker `---` the
reader fails with a FormatError; for every document with no second
occurrence of the marker after the first line it fails with a
FormatError; and every well-formed document (marker, front-matter block,
marker, free-text tail) is read successfully. -/
theorem c2_reader_format_error (first : String) (rest front tail : List String) :
    (first ≠ "---" → get_data_doc (first :: rest) = .error .formatError) ∧
    ((∀ l ∈ rest, l ≠ "---") → get_data_doc (first :: rest) = .error .formatError) ∧
    ("---" ∉ front →
      ∃ block desc, get_data_doc ("---" :: front ++ "---" :: tail) = .ok (block, desc)) := by
  refine ⟨?_, ?_, ?_⟩
  · intro h
    simp only [get_data_doc, if_neg h]
  · intro h
    by_cases hf : first = "---"
    · simp only [get_data_doc, if_pos hf, findMarkerFrom_none rest 1 h]
    · simp only [get_data_doc, if_neg hf]
  · intro h
    exact ⟨front, joinAll ("---" :: tail), get_data_doc_wf front tail h⟩

theorem c2_witness :
    (("x" : String) ≠ "---") ∧
    get_data_doc ["x", "---"] = .error .formatError ∧
    (∀ l ∈ (["a", "b"] : List String), l ≠ "---") ∧
    get_data_doc ["---", "a", "b"] = .error .formatError ∧
    ("---" ∉ (["id: abc"] : List String)) ∧
    (∃ block desc,
      get_data_doc ["---", "id: abc", "---", "tail text"] = .ok (block, desc)) :=
  ⟨by decide,
   (c2_reader_format_error "x" ["---"] [] []).1 (by decide),
   by decide,
   (c2_reader_format_error "---" ["a", "b"] [] []).2.1 (by decide),
   by decide,
   (c2_reader_format_error "---" [] ["id: abc"] ["tail text"]).2.2 (by decide)⟩

/-- C3 counterexample: the long-form description is *not* only the text
after the second marker: `get_data` sets it to `"".join(lines[idx:])`, and
`lines[idx]` is the marker line itself, so the marker is included. -/
theorem c3_counterexample :
    get_data_doc ["---", "id: x", "---", "hello"] = .ok (["id: x"], "---hello") ∧
    ("---hello" : String) ≠ "hello" :=
  ⟨rfl, by decide⟩

/-- C3 amended: the reader parses exactly the lines strictly between the
first two markers as the structured block, and the long-form description
equals the second marker line followed by the text after it, concatenated
without separators (the marker line is included). -/
theorem c3_amended (front tail : List String) (h : "---" ∉ front) :
    get_data_doc ("---" :: front ++ "---" :: tail) =
      .ok (front, joinAll ("---" :: tail)) :=
  get_data_doc_wf front tail h

theorem c3_amended_witness :
    ("---" ∉ (["id: y"] : List String)) ∧
    get_data_doc ["---", "id: y", "---", "world"] = .ok (["id: y"], "---world") :=
  ⟨by decide, c3_amended ["id: y"] ["world"] (by decide)⟩

/-- C1 evidence: evaluation of the publication validator on the spec's
four test vectors.  The versioned arXiv identifier is *accepted* by the
code (the unversioned-DOI loop only rejects suffixes of the form `.v<n>`,
and arXiv versions are written `...5678v2` with no dot), contradicting the
spec; the other three vectors behave as specified. -/
theorem c1_publication_eval :
    assert_valid_publication_id
      { title := some "T", id := "https://arxiv.org/abs/1234.5678v2" } = true ∧
    assert_valid_publication_id
      { title := some "T", id := "https://arxiv.org/abs/1234.5678" } = true ∧
    assert_valid_publication_id
      { title := some "T", id := "https://www.ncbi.nlm.nih.gov/pubmed/12345" } = true ∧
    assert_valid_publication_id
      { title := some "T", id := "https://example.com/paper" } = false := by
  refine ⟨?_, ?_, ?_, ?_⟩ <;> decide

theorem processRecord_hit (w : World) (pfx owner repoName : String)
    (m : List (String × UserProfile)) (hm : w.recordCache pfx = some m) :
    processRecord w pfx owner repoName = (m, w) := by
  unfold processRecord
  rw [hm]

/-- C5: when the per-record contributor cache file exists, the per-record
aggregation step returns exactly the parsed cache content and leaves the
world untouched: no network call is logged, no cache file is written. -/
theorem c5_cache_hit (w : World) (pfx owner repoName : String)
    (m : List (String × UserProfile)) (hm : w.recordCache pfx = some m) :
    processRecord w pfx owner repoName = (m, w) := by
  unfold processRecord
  rw [hm]

theorem c5_witness :
    w5.recordCache "go" = some pc5 ∧
    processRecord w5 "go" "geneontology" "go-ontology" = (pc5, w5) :=
  ⟨rfl, c5_cache_hit w5 "go" "geneontology" "go-ontology" pc5 rfl⟩

/-- C9: on a per-user cache miss, whatever JSON body the API oracle
returns is persisted under the lowercased username and returned, and any
subsequent lookup of the same username in any letter case returns that
payload with the world unchanged (no revalidation, no further calls). -/
theorem c9_user_cache (w : World) (u v : String)
    (hmiss : w.userCache (lowerStr u) = none)
    (hcase : lowerStr v = lowerStr u) :
    (get_github_user w u).1 = w.userApi (users_url u) ∧
    (get_github_user w u).2.userCache (lowerStr u) =
      some (w.userApi (users_url u)) ∧
    (get_github_user w u).2.calls = w.calls ++ [NetCall.userLookup u] ∧
    get_github_user (get_github_user w u).2 v =
      ((get_github_user w u).1, (get_github_user w u).2) := by
  have hstep : get_github_user w u =
      (w.userApi (users_url u),
       { w with
          userCache := fun k =>
            if k = lowerStr u then some (w.userApi (users_url u))
            else w.userCache k,
          calls := w.calls ++ [NetCall.userLookup u] }) := by
    unfold get_github_user
    rw [hmiss]
  rw [hstep]
  refine ⟨rfl, by simp, rfl, ?_⟩
  unfold get_github_user
  simp [hcase]

theorem c9_witness :
    w9.userCache (lowerStr "Alice") = none ∧
    lowerStr "ALICE" = lowerStr "Alice" ∧
    (get_github_user w9 "Alice").1 = w9.userApi (users_url "Alice") ∧
    (get_github_user w9 "Alice").2.userCache (lowerStr "Alice") =
      some (w9.userApi (users_url "Alice")) ∧
    (get_github_user w9 "Alice").2.calls =
      w9.calls ++ [NetCall.userLookup "Alice"] ∧
    get_github_user (get_github_user w9 "Alice").2 "ALICE" =
      ((get_github_user w9 "Alice").1, (get_github_user w9 "Alice").2) := by
  have h := c9_user_cache w9 "Alice" "ALICE" rfl (by decide)
  exact ⟨rfl, by decide, h.1, h.2.1, h.2.2.1, h.2.2.2⟩

/-- C8 counterexample: an active record with identifier `dpo` whose
preferred prefix does not case-insensitively match `dpo` still passes the
preferred-prefix check, because the code exempts `dpo` from the equality
assertion; so the check does not assert the equality for *every* active
record. -/
theorem c8_counterexample :
    skip_inactive recDpo = false ∧
    recDpo.preferredPfx = some "FBcv" ∧
    test_preferred_pfx [("dpo", recDpo)] = [] ∧
    lowerStr "FBcv" ≠ lowerStr "dpo" := by
  refine ⟨rfl, rfl, by decide, by decide⟩

/-- C8 amended: for every active record the check asserts that the
preferred prefix is present, has length at least 2 and contains no space,
and - except for the record with identifier `dpo`, which is exempted -
equals the record identifier under case-insensitive comparison. -/
theorem c8_amended (ontologies : List (String × OntRecord)) (pfx : String)
    (record : OntRecord)
    (hmem : (pfx, record) ∈ ontologies)
    (hact : skip_inactive record = false)
    (hpass : test_preferred_pfx ontologies = []) :
    record.preferredPfx ≠ none ∧
    (∀ pp, record.preferredPfx = some pp →
      2 ≤ pp.length ∧ strContains pp " " = false ∧
      (pfx ≠ "dpo" → lowerStr pp = lowerStr pfx)) := by
  have h1 := List.filterMap_eq_nil_iff.mp hpass (pfx, record) hmem
  simp only [hact, Bool.false_eq_true, if_false, Option.map_eq_none'] at h1
  cases hpp : record.preferredPfx with
  | none => simp [checkPreferredPfx, hpp] at h1
  | some pp =>
    simp only [checkPreferredPfx, hpp] at h1
    refine ⟨by simp [hpp], ?_⟩
    intro pp2 hpp2
    injection hpp2 with hpp3
    subst hpp3
    by_cases h2 : 2 ≤ pp.length
    · rw [if_neg (not_not_intro h2)] at h1
      by_cases h3 : strContains pp " " = true
      · rw [if_pos h3] at h1
        exact Option.noConfusion h1
      · have h3f : strContains pp " " = false := by
          cases hsc : strContains pp " "
          · rfl
          · exact absurd hsc h3
        rw [if_neg h3] at h1
        by_cases h4 : pfx ≠ "dpo" ∧ lowerStr pp ≠ lowerStr pfx
        · rw [if_pos h4] at h1
          exact Option.noConfusion h1
        · refine ⟨h2, h3f, ?_⟩
          intro h5
          by_contra h6
          exact h4 ⟨h5, h6⟩
    · rw [if_pos h2] at h1
      exact Option.noConfusion h1

theorem c8_witness :
    test_preferred_pfx storeGood = [] ∧
    recAbc.preferredPfx ≠ none ∧
    2 ≤ ("ABC" : String).length ∧ strContains "ABC" " " = false ∧
    lowerStr "ABC" = lowerStr "abc" := by
  have h := c8_amended storeGood "abc" recAbc (by decide) (by decide) (by decide)
  exact ⟨by decide, h.1, (h.2 "ABC" rfl).1, (h.2 "ABC" rfl).2.1,
    (h.2 "ABC" rfl).2.2 (by decide)⟩

theorem depFailure_none (storeIds : List String) (ont : String) :
    ∀ l : List (Nat × Dependency), depFailure storeIds ont l = none →
      ∀ pr ∈ l, pr.2.type ≠ some "BridgeOntology" → pr.2.id ∈ storeIds := by
  intro l
  induction l with
  | nil =>
    intro _ pr hpr
    cases hpr
  | cons hd tl ih =>
    intro hnone pr hpr
    obtain ⟨i, dep⟩ := hd
    rw [List.mem_cons] at hpr
    by_cases hb : dep.type = some "BridgeOntology"
    · rw [show depFailure storeIds ont ((i, dep) :: tl) =
          (if strStarts dep.id (ont ++ "/") then depFailure storeIds ont tl
           else some ("Bridge dependency of " ++ ont ++ " does not start with " ++
             ont ++ "/")) from by
        simp only [depFailure, if_pos hb]] at hnone
      by_cases hs : strStarts dep.id (ont ++ "/") = true
      · rw [if_pos hs] at hnone
        rcases hpr with hpr | hpr
        · intro hnb
          rw [hpr] at hnb
          exact absurd hb hnb
        · exact ih hnone pr hpr
      · rw [if_neg hs] at hnone
        exact Option.noConfusion hnone
    · rw [show depFailure storeIds ont ((i, dep) :: tl) =
          (if dep.id ∈ storeIds then depFailure storeIds ont tl
           else some ("Ontology " ++ ont ++ " has invalid dependency at index " ++
             toString i ++ ": " ++ dep.id)) from by
        simp only [depFailure, if_neg hb]] at hnone
      by_cases hm : dep.id ∈ storeIds
      · rw [if_pos hm] at hnone
        rcases hpr with hpr | hpr
        · intro _
          rw [hpr]
          exact hm
        · exact ih hnone pr hpr
      · rw [if_neg hm] at hnone
        exact Option.noConfusion hnone

/-- C6: a record passing the dependency check has its dependency-id list
sorted (in the Python string order) and duplicate-free, and every
dependency that is not declared a `BridgeOntology` sub-resource names an
identifier of the store; moreover the two-record scenario with `abc` and
`xyz` depending on `["abc"]` passes, while changing the dependency to
`["missing"]` fails with a per-record diagnostic naming `xyz` and
`missing`. -/
theorem c6_dependencies :
    (∀ (ontologies : List (String × OntRecord)) (ont : String)
       (data : OntRecord) (d : Dependency),
       (ont, data) ∈ ontologies → test_dependencies ontologies = [] →
       d ∈ data.dependencies →
       List.Pairwise strLeR (data.dependencies.map (fun x => x.id)) ∧
       (data.dependencies.map (fun x => x.id)).Nodup ∧
       (d.type ≠ some "BridgeOntology" → d.id ∈ ontologies.map Prod.fst)) ∧
    test_dependencies storeGood = [] ∧
    test_dependencies storeBad =
      [("xyz", "Ontology xyz has invalid dependency at index 0: missing")] ∧
    strContains "Ontology xyz has invalid dependency at index 0: missing"
      "xyz" = true ∧
    strContains "Ontology xyz has invalid dependency at index 0: missing"
      "missing" = true := by
  refine ⟨?_, by decide, by decide, by decide, by decide⟩
  intro ontologies ont data d hmem hpass hd
  have h1 := List.filterMap_eq_nil_iff.mp hpass (ont, data) hmem
  have hne : data.dependencies.isEmpty = false := by
    cases hdeps : data.dependencies with
    | nil =>
      rw [hdeps] at hd
      cases hd
    | cons a t =>
      rfl
  simp only [hne, Bool.false_eq_true, if_false, Option.map_eq_none'] at h1
  simp only [checkRecordDeps] at h1
  by_cases hs : sortStrings (data.dependencies.map (fun d => d.id)) =
      data.dependencies.map (fun d => d.id)
  case neg =>
    rw [if_pos hs] at h1
    exact Option.noConfusion h1
  rw [if_neg (not_not_intro hs)] at h1
  by_cases hdd : sortStrings (data.dependencies.map (fun d => d.id)).dedup =
      data.dependencies.map (fun d => d.id)
  case neg =>
    rw [if_pos hdd] at h1
    exact Option.noConfusion h1
  rw [if_neg (not_not_intro hdd)] at h1
  refine ⟨?_, ?_, ?_⟩
  · have hx := List.sorted_insertionSort strLeR (data.dependencies.map (fun x => x.id))
    rw [show List.insertionSort strLeR (data.dependencies.map (fun x => x.id)) =
      sortStrings (data.dependencies.map (fun x => x.id)) from rfl, hs] at hx
    exact hx
  · have hperm :
        (sortStrings (data.dependencies.map (fun x => x.id)).dedup).Perm
          ((data.dependencies.map (fun x => x.id)).dedup) :=
      List.perm_insertionSort strLeR _
    rw [hdd] at hperm
    exact (List.nodup_dedup _).perm hperm.symm
  · intro hnb
    have hd2 : d ∈ List.map Prod.snd data.dependencies.enum := by
      rw [List.enum_map_snd]
      exact hd
    obtain ⟨pr, hpr1, hpr2⟩ := List.mem_map.mp hd2
    have := depFailure_none (ontologies.map Prod.fst) ont
      data.dependencies.enum h1 pr hpr1
    rw [hpr2] at this
    exact this hnb

theorem c6_witness :
    (("xyz", recXyzGood) ∈ storeGood) ∧
    test_dependencies storeGood = [] ∧
    (({ id := "abc", type := none } : Dependency) ∈ recXyzGood.dependencies) ∧
    List.Pairwise strLeR (recXyzGood.dependencies.map (fun x => x.id)) ∧
    (recXyzGood.dependencies.map (fun x => x.id)).Nodup ∧
    (("abc" : String) ∈ storeGood.map Prod.fst) := by
  have h := c6_dependencies.1 storeGood "xyz" recXyzGood
    { id := "abc", type := none } (by decide) (by decide) (by decide)
  exact ⟨by decide, by decide, by decide, h.1, h.2.1, h.2.2 (by decide)⟩

theorem quoteStr_inj {a b : String} (h : quoteStr a = quoteStr b) : a = b := by
  have h1 := congrArg String.data h
  simp only [quoteStr, String.data_append] at h1
  rw [List.append_assoc, List.append_assoc] at h1
  exact String.ext (List.append_cancel_right (List.append_cancel_left h1))

/-- C4: a contributor username that is in the exclusion set (either
case-sensitively or by its lowercased form) or among the override table's
keys (which are merged into the exclusion set at initialization)
contributes no triple to the unresolved-candidate discovery query; in
particular this holds for the override-table username `seljaseppala`
whatever its name or record set. -/
theorem c4_exclusion (contributors : List (String × CurationEntry))
    (login : String) (t : String × String × String)
    (hex : login ∈ login_blacklist ∨ lowerStr login ∈ login_blacklist ∨
      login ∈ github_to_orcid.map Prod.fst)
    (ht : t ∈ curationTriplesSorted contributors) :
    t.1 ≠ quoteStr login := by
  have hex2 : login ∈ login_blacklist ∨ lowerStr login ∈ login_blacklist := by
    rcases hex with h | h | h
    · exact Or.inl h
    · exact Or.inr h
    · exact Or.inl (List.mem_append_right login_blacklist_base h)
  have ht2 : t ∈ (curationTriples contributors).dedup :=
    ((List.perm_insertionSort tripleLeR _).mem_iff).mp ht
  have ht3 : t ∈ curationTriples contributors := List.mem_dedup.mp ht2
  obtain ⟨p, hp1, hp2⟩ := List.mem_map.mp ht3
  obtain ⟨_, hp4⟩ := List.mem_filter.mp hp1
  rw [decide_eq_true_eq] at hp4
  intro heq
  have h5 : quoteStr p.1 = quoteStr login := by
    have h6 := congrArg Prod.fst hp2
    simp only [curationTriple] at h6
    exact h6.trans heq
  have h7 := quoteStr_inj h5
  rw [h7] at hp4
  rcases hex2 with h | h
  · exact hp4.2 h
  · exact hp4.1 h

theorem c4_witness :
    ("seljaseppala" ∈ github_to_orcid.map Prod.fst) ∧
    (curationTriple "gooduser" curGood ∈ curationTriplesSorted contribsW) ∧
    (curationTriple "gooduser" curGood).1 ≠ quoteStr "seljaseppala" := by
  refine ⟨by decide, by decide, ?_⟩
  exact c4_exclusion contribsW "seljaseppala" (curationTriple "gooduser" curGood)
    (Or.inr (Or.inr (by decide))) (by decide)

theorem containsAux_append_right (pat l m : List Char)
    (h : containsAux pat m = true) : containsAux pat (l ++ m) = true := by
  induction l with
  | nil => simpa using h
  | cons c t ih =>
    simp only [List.cons_append, List.append_eq, containsAux, ih, Bool.or_true]

theorem strContains_append_right (a b pat : String)
    (h : strContains b pat = true) : strContains (a ++ b) pat = true := by
  unfold strContains at h ⊢
  rw [String.data_append]
  exact containsAux_append_right pat.data a.data b.data h

set_option maxRecDepth 40000 in
/-- C7 counterexample: on the empty contributor relation, the constructed
discovery query contains no `DESC(?person)` ordering at all; its ordering
clause is `ORDER BY ?person DESC(?name)` (the unbound `?person` variable
ascending, then the name descending), refuting the claimed ordering
(external-node-identifier descending, then name ascending). -/
theorem c7_counterexample :
    strContains (get_curation_sparql []) "DESC(?person)" = false ∧
    strContains (get_curation_sparql []) "ORDER BY ?person DESC(?name)" = true ∧
    strContains (get_curation_sparql []) "FILTER(!BOUND(?person))" = true := by
  refine ⟨?_, ?_, ?_⟩ <;> decide

set_option maxRecDepth 40000 in
/-- C7 amended: for every contributor relation, the discovery query keeps
only candidate rows where no matching external node was bound (the
`FILTER(!BOUND(?person))` clause) and orders by the unbound `?person`
variable ascending and then by name descending (the
`ORDER BY ?person DESC(?name)` clause). -/
theorem c7_amended (contributors : List (String × CurationEntry)) :
    strContains (get_curation_sparql contributors)
      "FILTER(!BOUND(?person))" = true ∧
    strContains (get_curation_sparql contributors)
      "ORDER BY ?person DESC(?name)" = true := by
  constructor
  · exact strContains_append_right (curationHead ++ githubLoginsStr contributors)
      curationTail "FILTER(!BOUND(?person))" (by decide)
  · exact strContains_append_right (curationHead ++ githubLoginsStr contributors)
      curationTail "ORDER BY ?person DESC(?name)" (by decide)

theorem aggLoop_cons_cached (w : World) (pfx owner repoName : String)
    (rest : List (String × String × String))
    (authors : String → Option UserProfile) (a2p : String → List String)
    (m : List (String × UserProfile)) (hm : w.recordCache pfx = some m) :
    aggLoop w ((pfx, owner, repoName) :: rest) authors a2p =
      aggLoop w rest
        (fun l => match lookupFirst m l with
                  | some d => some d
                  | none => authors l)
        (fun l => if l ∈ m.map Prod.fst then
                    (if pfx ∈ a2p l then a2p l else a2p l ++ [pfx])
                  else a2p l) := by
  have hpr : processRecord w pfx owner repoName = (m, w) :=
    processRecord_hit w pfx owner repoName m hm
  simp only [aggLoop, hpr]

theorem aggLoop_all_cached (rs : List (String × String × String)) (w : World) :
    ∀ (authors : String → Option UserProfile) (a2p : String → List String)
      (login : String),
      (∀ r ∈ rs, (w.recordCache r.1).isSome = true) →
      ((rs.map (fun r => r.1)).Nodup) →
      (∀ q ∈ rs.map (fun r => r.1), q ∉ a2p login) →
      (aggLoop w rs authors a2p).1 login =
        (match lastWinsProfile (cachedMaps w rs) login with
         | some d => some d
         | none => authors login) ∧
      (aggLoop w rs authors a2p).2.1 login =
        a2p login ++ recordSetOf (cachedMaps w rs) login ∧
      (aggLoop w rs authors a2p).2.2 = w := by
  induction rs with
  | nil =>
    intro authors a2p login _ _ _
    exact ⟨rfl, by simp [cachedMaps, recordSetOf, aggLoop], rfl⟩
  | cons r rest ih =>
    intro authors a2p login hc hnd hnew
    obtain ⟨pfx, owner, repoName⟩ := r
    obtain ⟨m, hm⟩ := Option.isSome_iff_exists.mp
      (hc (pfx, owner, repoName) (List.mem_cons_self _ _))
    have hpfx_new : pfx ∉ a2p login := hnew pfx (List.mem_cons_self _ _)
    have hnd2 : (rest.map (fun r => r.1)).Nodup ∧ pfx ∉ rest.map (fun r => r.1) := by
      rw [List.map_cons, List.nodup_cons] at hnd
      exact ⟨hnd.2, hnd.1⟩
    have hc2 : ∀ x ∈ rest, (w.recordCache x.1).isSome = true :=
      fun x hx => hc x (List.mem_cons_of_mem _ hx)
    have hnew2 : ∀ q ∈ rest.map (fun r => r.1),
        q ∉ (if login ∈ m.map Prod.fst then
              (if pfx ∈ a2p login then a2p login else a2p login ++ [pfx])
             else a2p login) := by
      intro q hq
      by_cases hmem : login ∈ m.map Prod.fst
      · rw [if_pos hmem, if_neg hpfx_new]
        intro hqmem
        rcases List.mem_append.mp hqmem with h | h
        · exact hnew q (List.mem_cons_of_mem _ hq) h
        · have hqp : q = pfx := by simpa using h
          rw [hqp] at hq
          exact hnd2.2 hq
      · rw [if_neg hmem]
        exact hnew q (List.mem_cons_of_mem _ hq)
    rw [aggLoop_cons_cached w pfx owner repoName rest authors a2p m hm]
    have hkey := ih
      (fun l => match lookupFirst m l with
                | some d => some d
                | none => authors l)
      (fun l => if l ∈ m.map Prod.fst then
                  (if pfx ∈ a2p l then a2p l else a2p l ++ [pfx])
                else a2p l)
      login hc2 hnd2.1 hnew2
    obtain ⟨k1, k2, k3⟩ := hkey
    have hcm : cachedMaps w ((pfx, owner, repoName) :: rest) =
        (pfx, m) :: cachedMaps w rest := by
      simp [cachedMaps, hm]
    rw [hcm]
    refine ⟨?_, ?_, k3⟩
    · rw [k1]
      cases hlast : lastWinsProfile (cachedMaps w rest) login with
      | some d => simp [lastWinsProfile, hlast]
      | none =>
        simp only [lastWinsProfile, hlast]
    · rw [k2]
      by_cases hmem : login ∈ m.map Prod.fst
      · simp [recordSetOf, List.filter_cons, hmem, if_neg hpfx_new,
          List.append_assoc]
      · simp [recordSetOf, List.filter_cons, hmem]

/-- C10: when a contributor username appears in several records'
contributor maps, the merged global view keeps the profile fields from
whichever record comes last in identifier-sorted processing order, and
the added record-set field collects exactly the identifiers of the
records whose contributor map mentions the username.  Stated for runs in
which every processed record has its per-record cache file (which fixes
the per-record contributor maps); `lastWinsProfile` and `recordSetOf`
are the spec-side definitions of the two merge rules. -/
theorem c10_merge (w : World) (repos : List (String × String × String))
    (login : String)
    (hc : ∀ r ∈ sortRepos repos, (w.recordCache r.1).isSome = true)
    (hnd : ((sortRepos repos).map (fun r => r.1)).Nodup) :
    (get_contributors w repos).1 login =
      (lastWinsProfile (cachedMaps w (sortRepos repos)) login).map
        (fun p =>
          { profile := p,
            prefixes := recordSetOf (cachedMaps w (sortRepos repos)) login }) := by
  obtain ⟨k1, k2, _⟩ := aggLoop_all_cached (sortRepos repos) w
    (fun _ => none) (fun _ => []) login hc hnd
    (fun q _ => List.not_mem_nil q)
  unfold get_contributors
  simp only [k1, k2]
  cases lastWinsProfile (cachedMaps w (sortRepos repos)) login <;> simp

theorem c10_witness :
    (get_contributors wC10 reposC10).1 "alice" =
      (lastWinsProfile (cachedMaps wC10 (sortRepos reposC10)) "alice").map
        (fun p =>
          { profile := p,
            prefixes := recordSetOf (cachedMaps wC10 (sortRepos reposC10)) "alice" }) :=
  c10_merge wC10 reposC10 "alice" (by decide) (by decide)
